import Mathlib

/-!
Shallow embedding of `src/nomic/atlas.py` (the `map_text` and `map_embeddings`
entry points of the nomic Atlas client) and proofs about its batched upload
protocol: identifier synthesis, 100000-record batching, rollback on failure,
and post-upload index construction.

Records are Python dicts, modelled as insertion-ordered association lists.
Remote behaviour (the `AtlasDataset` collaborator, which lives in
`nomic/dataset.py`) is modelled by an environment that decides, for each
add-records call, whether it succeeds or raises, together with the dataset's
datum count before the upload; the model returns the ordered trace of remote
calls issued, the warnings emitted, and the exception (if any) that
propagates to the caller.
-/

/-- Names of record fields. -/
abbrev FieldName := String

/-- Scalar values stored in records.  `encId n` is the image of the counter
`n` under the identifier encoding (see `b64int`). -/
inductive Value where
  | str (s : String)
  | encId (n : Nat)
deriving DecidableEq

/-- Modelled from the spec: `b64int` (defined in `nomic/utils.py`, which is not
under `src/`) is the deterministic, order-based encoding of a zero-based
integer counter (spec section 3: "synthesized as a deterministic, order-based
encoded integer").  Only determinism and injectivity of the encoding matter to
the claims, so it is modelled as a tagged embedding of the counter. -/
def b64int (i : Nat) : Value := Value.encId i

/-- Modelled from the spec: `ATLAS_DEFAULT_ID_FIELD` (defined in
`nomic/settings.py`, which is not under `src/`), the "default well-known
constant" identifier field name; the docstrings of `atlas.py` name it `id_`. -/
def ATLAS_DEFAULT_ID_FIELD : FieldName := "id_"

/-- A record: a Python dict, an insertion-ordered mapping from field names to
values. -/
abbrev Dict := List (FieldName × Value)

/-- Key lookup on a dict (first matching key wins; Python dicts have unique
keys, so this is exact). -/
def dictGet : Dict → FieldName → Option Value
  | [], _ => none
  | p :: d, k => if p.1 = k then some p.2 else dictGet d k

/-- Python's `k in d` membership test on a dict. -/
def dictHasKey (d : Dict) (k : FieldName) : Bool := (dictGet d k).isSome

/-- Python's `d[k] = v` on a dict: overwrite in place if the key is present,
otherwise append the new key at the end (insertion order). -/
def dictSet (d : Dict) (k : FieldName) (v : Value) : Dict :=
  if (dictGet d k).isSome then d.map (fun p => if p.1 = k then (k, v) else p)
  else d ++ [(k, v)]

lemma dictGet_setAll (d : Dict) (k : FieldName) (v : Value) :
    dictGet (d.map (fun p => if p.1 = k then (k, v) else p)) k
      = if (dictGet d k).isSome then some v else none := by
  induction d with
  | nil => simp [dictGet]
  | cons p d ih =>
    by_cases hp : p.1 = k
    · simp [dictGet, hp]
    · simp [dictGet, hp, ih]

lemma dictGet_append_new (d : Dict) (k : FieldName) (v : Value)
    (h : dictGet d k = none) : dictGet (d ++ [(k, v)]) k = some v := by
  induction d with
  | nil => simp [dictGet]
  | cons p d ih =>
    simp only [dictGet] at h ⊢
    by_cases hp : p.1 = k
    · simp [hp] at h
    · simp only [hp, if_false] at h ⊢
      exact ih h

/-- Setting a key then reading it back yields the written value. -/
lemma dictGet_dictSet (d : Dict) (k : FieldName) (v : Value) :
    dictGet (dictSet d k v) k = some v := by
  unfold dictSet
  by_cases h : (dictGet d k).isSome
  · simp [h, dictGet_setAll]
  · have hn : dictGet d k = none := by
      cases hg : dictGet d k with
      | none => rfl
      | some w => rw [hg] at h; simp at h
    simp [h, dictGet_append_new d k v hn]

/-- The `add_id_field` decision of `map_text` (atlas.py lines 227-230): the
identifier field is the default field and is absent from the first record. -/
def addIdField (id_field : FieldName) (first : Dict) : Bool :=
  id_field = ATLAS_DEFAULT_ID_FIELD && !(dictHasKey first id_field)

/-- The hard-coded `upload_batch_size` of `map_text` (atlas.py line 245). -/
def upload_batch_size : Nat := 100000

/-- Per-record identifier augmentation with the counter starting at `k`: the
effect of `d = d.copy(); d[id_field] = b64int(id_to_add); id_to_add += 1`
(atlas.py lines 247-250 and 255-260) applied down a record sequence.  When
`add_id_field` is false records pass through unchanged. -/
def augFrom (add_id_field : Bool) (id_field : FieldName) : Nat → List Dict → List Dict
  | _, [] => []
  | k, d :: ds =>
    (if add_id_field then dictSet d id_field (b64int k) else d)
      :: augFrom add_id_field id_field (k + 1) ds

lemma augFrom_false (id_field : FieldName) :
    ∀ (k : Nat) (ds : List Dict), augFrom false id_field k ds = ds := by
  intro k ds
  induction ds generalizing k with
  | nil => rfl
  | cons d ds ih => simp [augFrom, ih]

lemma augFrom_length (a : Bool) (id_field : FieldName) :
    ∀ (k : Nat) (ds : List Dict), (augFrom a id_field k ds).length = ds.length := by
  intro k ds
  induction ds generalizing k with
  | nil => rfl
  | cons d ds ih => simp [augFrom, ih]

lemma augFrom_get (id_field : FieldName) :
    ∀ (ds : List Dict) (k i : Nat) (hi : i < ds.length)
      (hi2 : i < (augFrom true id_field k ds).length),
      (augFrom true id_field k ds).get ⟨i, hi2⟩
        = dictSet (ds.get ⟨i, hi⟩) id_field (b64int (k + i)) := by
  intro ds
  induction ds with
  | nil => intro k i hi _; exact absurd hi (Nat.not_lt_zero i)
  | cons d ds ih =>
    intro k i hi hi2
    cases i with
    | zero => simp [augFrom]
    | succ j =>
      have hj : j < ds.length := Nat.lt_of_succ_lt_succ hi
      have hj2 : j < (augFrom true id_field (k + 1) ds).length := by
        rw [augFrom_length]; exact hj
      have harith : k + 1 + j = k + (j + 1) := by omega
      have := ih (k + 1) j hj hj2
      simp only [augFrom, List.get_cons_succ]
      rw [this, harith]

/-- Exceptions that can propagate out of an upload call.  `keyboardInterrupt`
stands for a non-remote `BaseException`; `emptyEmbeddings` is the
`Exception("Your embeddings cannot be empty")` of atlas.py line 64;
`indexError` is the `IndexError` raised by `data[0]` on line 85 when `data`
is an empty list; `validationFailed` is the local ValidationError raised by
`_validate_map_data_inputs`. -/
inductive Err where
  | remote (msg : String)
  | keyboardInterrupt
  | validationFailed (msg : String)
  | emptyEmbeddings
  | indexError
deriving DecidableEq

/-- Warnings an upload call can emit (via `logger.warning`). -/
inductive Warning where
  | emptyData
  | idFieldGenerated
  | shardSizeDeprecated
  | numWorkersDeprecated
deriving DecidableEq

/-- The arguments `map_text` passes to `project.create_index`
(atlas.py lines 279-289).  The two float hyperparameters are passed through
untouched by the client, so they are modelled as rationals. -/
structure TextIndexParams where
  name : String
  indexed_field : FieldName
  colorable_fields : List FieldName
  build_topic_model : Bool
  projection_n_neighbors : Nat
  projection_epochs : Nat
  projection_spread : Rat
  duplicate_detection : Bool
  duplicate_threshold : Rat
deriving DecidableEq

/-- The arguments `map_embeddings` passes to `project.create_index`
(atlas.py lines 131-139). -/
structure EmbIndexParams where
  name : String
  colorable_fields : List FieldName
  build_topic_model : Bool
  projection_n_neighbors : Nat
  projection_epochs : Nat
  projection_spread : Rat
  topic_label_field : Option FieldName
deriving DecidableEq

/-- A remote call through the Dataset Session collaborator interface
(spec section 6): dataset creation (the `AtlasDataset` constructor),
`add_text`, `add_embeddings`, `delete`, `create_index` (one shape per entry
point) and `rebuild_maps`. -/
inductive RemoteCall where
  | createDataset (identifier : String) (description : String)
      (unique_id_field : FieldName) (modality : String) (is_public : Bool)
      (reset_project_if_exists : Bool) (add_datums_if_exists : Bool)
  | addText (batch : List Dict)
  | addEmbeddings (n d : Nat) (data : List Dict)
  | deleteDataset
  | createIndexText (p : TextIndexParams)
  | createIndexEmb (p : EmbIndexParams)
  | rebuildMaps
deriving DecidableEq

/-- Behaviour of the remote service during one upload call: the dataset's
datum count before the upload (`Session.total_datums`), whether the k-th
add-records call raises (and with what), whether `Session.delete` raises,
and the string produced by `get_random_name()`. -/
structure RemoteEnv where
  total_datums : Nat
  addFail : Nat → Option Err
  deleteFail : Option Err
  random_name : String

/-- Outcome of one upload call: the ordered trace of remote calls issued, the
warnings emitted, the exception propagating to the caller (if any), and
whether a dataset handle was returned. -/
structure RunResult where
  calls : List RemoteCall
  warnings : List Warning
  err : Option Err
  returned : Bool
deriving DecidableEq

/-- State of the `map_text` upload loop (atlas.py lines 245-267): the remote
calls issued so far, the batch being assembled, the identifier counter
`id_to_add`, and the number of `add_text` calls made so far (the index into
`RemoteEnv.addFail`). -/
structure TryState where
  calls : List RemoteCall
  batch : List Dict
  id_to_add : Nat
  nsent : Nat
deriving DecidableEq

/-- One iteration of the `for d in data_iterator` loop body of `map_text`
(atlas.py lines 254-264): optionally copy-and-augment the record, append it
to the batch, and flush the batch through `add_text` once it reaches
`upload_batch_size`; a raising `add_text` aborts with that error. -/
def tryStep (env : RemoteEnv) (a : Bool) (f : FieldName) (st : TryState) (d : Dict) :
    TryState × Option Err :=
  let d2 := if a then dictSet d f (b64int st.id_to_add) else d
  let nextId := if a then st.id_to_add + 1 else st.id_to_add
  let batch2 := st.batch ++ [d2]
  if upload_batch_size ≤ batch2.length then
    match env.addFail st.nsent with
    | none =>
      ({ calls := st.calls ++ [RemoteCall.addText batch2], batch := [],
         id_to_add := nextId, nsent := st.nsent + 1 }, none)
    | some e =>
      ({ calls := st.calls ++ [RemoteCall.addText batch2], batch := batch2,
         id_to_add := nextId, nsent := st.nsent }, some e)
  else
    ({ calls := st.calls, batch := batch2, id_to_add := nextId,
       nsent := st.nsent }, none)

/-- The `for d in data_iterator` loop of `map_text` (atlas.py lines 254-264),
aborting at the first raising `add_text` call. -/
def tryLoop (env : RemoteEnv) (a : Bool) (f : FieldName) :
    TryState → List Dict → TryState × Option Err
  | st, [] => (st, none)
  | st, d :: ds =>
    match tryStep env a f st d with
    | (st2, none) => tryLoop env a f st2 ds
    | (st2, some e) => (st2, some e)

/-- The state at the top of the try block of `map_text` (atlas.py lines
245-252): the counter starts at 0, the peeked first sample is augmented (as a
copy) when `add_id_field` is set, and the batch is initialized to
`[first_sample]`. -/
def initTryState (a : Bool) (f : FieldName) (first : Dict) : TryState :=
  if a then
    { calls := [], batch := [dictSet first f (b64int 0)], id_to_add := 1, nsent := 0 }
  else
    { calls := [], batch := [first], id_to_add := 0, nsent := 0 }

/-- The whole try block of `map_text` (atlas.py lines 244-267): run the loop,
then flush the final partial batch if it is non-empty. -/
def tryBlock (env : RemoteEnv) (a : Bool) (f : FieldName) (first : Dict)
    (rest : List Dict) : TryState × Option Err :=
  match tryLoop env a f (initTryState a f first) rest with
  | (st, some e) => (st, some e)
  | (st, none) =>
    if 0 < st.batch.length then
      match env.addFail st.nsent with
      | none =>
        ({ calls := st.calls ++ [RemoteCall.addText st.batch], batch := [],
           id_to_add := st.id_to_add, nsent := st.nsent + 1 }, none)
      | some e =>
        ({ calls := st.calls ++ [RemoteCall.addText st.batch], batch := st.batch,
           id_to_add := st.id_to_add, nsent := st.nsent }, some e)
    else (st, none)

/-- The batches handed to the remote add-records call, extracted in order from
a trace of remote calls. -/
def sentBatches (calls : List RemoteCall) : List (List Dict) :=
  calls.filterMap (fun c => match c with
    | RemoteCall.addText b => some b
    | _ => none)

lemma sentBatches_addText (l : List RemoteCall) (b : List Dict) :
    sentBatches (l ++ [RemoteCall.addText b]) = sentBatches l ++ [b] := by
  simp [sentBatches, List.filterMap_append]

lemma tryStep_spec (env : RemoteEnv) (a : Bool) (f : FieldName)
    (hAll : ∀ k, env.addFail k = none) (st : TryState) (d : Dict) :
    (tryStep env a f st d).2 = none ∧
    (sentBatches (tryStep env a f st d).1.calls).flatten ++ (tryStep env a f st d).1.batch
      = (sentBatches st.calls).flatten ++ st.batch
          ++ [if a then dictSet d f (b64int st.id_to_add) else d] ∧
    (tryStep env a f st d).1.id_to_add = (if a then st.id_to_add + 1 else st.id_to_add) := by
  unfold tryStep
  simp only [hAll]
  split <;> split <;> simp [sentBatches_addText, List.flatten_append]

lemma tryLoop_spec (env : RemoteEnv) (a : Bool) (f : FieldName)
    (hAll : ∀ k, env.addFail k = none) :
    ∀ (ds : List Dict) (st : TryState),
      (tryLoop env a f st ds).2 = none ∧
      (sentBatches (tryLoop env a f st ds).1.calls).flatten ++ (tryLoop env a f st ds).1.batch
        = (sentBatches st.calls).flatten ++ st.batch ++ augFrom a f st.id_to_add ds := by
  intro ds
  induction ds with
  | nil => intro st; simp [tryLoop, augFrom]
  | cons d ds ih =>
    intro st
    obtain ⟨h2, hflat, hid⟩ := tryStep_spec env a f hAll st d
    have hred : tryLoop env a f st (d :: ds) = tryLoop env a f (tryStep env a f st d).1 ds := by
      rcases hst : tryStep env a f st d with ⟨st2, e2⟩
      rw [hst] at h2
      simp only at h2
      subst h2
      simp [tryLoop, hst]
    rw [hred]
    obtain ⟨g2, gflat⟩ := ih (tryStep env a f st d).1
    refine ⟨g2, ?_⟩
    rw [gflat, hflat, hid]
    cases a with
    | true => simp [augFrom, List.append_assoc]
    | false => simp [augFrom, augFrom_false, List.append_assoc]

lemma tryBlock_spec (env : RemoteEnv) (a : Bool) (f : FieldName)
    (hAll : ∀ k, env.addFail k = none) (first : Dict) (rest : List Dict) :
    (tryBlock env a f first rest).2 = none ∧
    (sentBatches (tryBlock env a f first rest).1.calls).flatten
      = augFrom a f 0 (first :: rest) := by
  obtain ⟨h2, hflat⟩ := tryLoop_spec env a f hAll rest (initTryState a f first)
  have hinit : (sentBatches (initTryState a f first).calls).flatten
        ++ (initTryState a f first).batch
        ++ augFrom a f (initTryState a f first).id_to_add rest
      = augFrom a f 0 (first :: rest) := by
    cases a with
    | true => simp [initTryState, sentBatches, augFrom]
    | false => simp [initTryState, sentBatches, augFrom, augFrom_false]
  rw [hinit] at hflat
  unfold tryBlock
  rcases hloop : tryLoop env a f (initTryState a f first) rest with ⟨st, e2⟩
  rw [hloop] at h2 hflat
  simp only at h2 hflat
  subst h2
  by_cases hb : 0 < st.batch.length
  · simp only [hb, if_true, hAll]
    refine ⟨trivial, ?_⟩
    simp only [sentBatches_addText, List.flatten_append]
    simpa using hflat
  · simp only [hb, if_false]
    have hbn : st.batch = [] := by
      cases hsb : st.batch with
      | nil => rfl
      | cons x xs => rw [hsb] at hb; simp at hb
    rw [hbn] at hflat
    refine ⟨trivial, ?_⟩
    simpa using hflat

lemma upload_batch_size_pos : 0 < upload_batch_size := by
  norm_num [upload_batch_size]

lemma sent_after_flush (calls : List RemoteCall) (batch : List Dict)
    (hs : ∀ b ∈ sentBatches calls, b.length = upload_batch_size)
    (hlen : batch.length = upload_batch_size) :
    ∀ b ∈ sentBatches (calls ++ [RemoteCall.addText batch]), b.length = upload_batch_size := by
  intro b hbm
  rw [sentBatches_addText] at hbm
  rcases List.mem_append.mp hbm with h1 | h2
  · exact hs b h1
  · have hb2 : b = batch := by simpa using h2
    rw [hb2]; exact hlen

lemma tryStep_sizes (env : RemoteEnv) (a : Bool) (f : FieldName)
    (hAll : ∀ k, env.addFail k = none) (st : TryState) (d : Dict)
    (hs : ∀ b ∈ sentBatches st.calls, b.length = upload_batch_size)
    (hb : st.batch.length < upload_batch_size) :
    (∀ b ∈ sentBatches (tryStep env a f st d).1.calls, b.length = upload_batch_size) ∧
    (tryStep env a f st d).1.batch.length < upload_batch_size := by
  unfold tryStep
  simp only [hAll]
  split <;> split
  · rename_i hcond
    refine ⟨sent_after_flush _ _ hs ?_, upload_batch_size_pos⟩
    simp only [List.length_append, List.length_singleton] at hcond ⊢
    omega
  · rename_i hcond
    refine ⟨hs, ?_⟩
    simp only [List.length_append, List.length_singleton] at hcond ⊢
    omega
  · rename_i hcond
    refine ⟨sent_after_flush _ _ hs ?_, upload_batch_size_pos⟩
    simp only [List.length_append, List.length_singleton] at hcond ⊢
    omega
  · rename_i hcond
    refine ⟨hs, ?_⟩
    simp only [List.length_append, List.length_singleton] at hcond ⊢
    omega

lemma tryLoop_sizes (env : RemoteEnv) (a : Bool) (f : FieldName)
    (hAll : ∀ k, env.addFail k = none) :
    ∀ (ds : List Dict) (st : TryState),
      (∀ b ∈ sentBatches st.calls, b.length = upload_batch_size) →
      st.batch.length < upload_batch_size →
      (∀ b ∈ sentBatches (tryLoop env a f st ds).1.calls, b.length = upload_batch_size) ∧
      (tryLoop env a f st ds).1.batch.length < upload_batch_size := by
  intro ds
  induction ds with
  | nil => intro st hs hb; exact ⟨hs, hb⟩
  | cons d ds ih =>
    intro st hs hb
    obtain ⟨h2, _, _⟩ := tryStep_spec env a f hAll st d
    obtain ⟨gs, gb⟩ := tryStep_sizes env a f hAll st d hs hb
    have hred : tryLoop env a f st (d :: ds) = tryLoop env a f (tryStep env a f st d).1 ds := by
      rcases hst : tryStep env a f st d with ⟨st2, e2⟩
      rw [hst] at h2
      simp only at h2
      subst h2
      simp [tryLoop, hst]
    rw [hred]
    exact ih (tryStep env a f st d).1 gs gb

lemma tryBlock_sizes (env : RemoteEnv) (a : Bool) (f : FieldName)
    (hAll : ∀ k, env.addFail k = none) (first : Dict) (rest : List Dict) :
    (∀ b ∈ sentBatches (tryBlock env a f first rest).1.calls,
        b.length ≤ upload_batch_size) ∧
    (∀ b ∈ (sentBatches (tryBlock env a f first rest).1.calls).dropLast,
        b.length = upload_batch_size) := by
  have hinit1 : ∀ b ∈ sentBatches (initTryState a f first).calls,
      b.length = upload_batch_size := by
    cases a <;> simp [initTryState, sentBatches]
  have hinit2 : (initTryState a f first).batch.length < upload_batch_size := by
    cases a <;> simp [initTryState] <;> norm_num [upload_batch_size]
  obtain ⟨hs, hb⟩ := tryLoop_sizes env a f hAll rest (initTryState a f first) hinit1 hinit2
  obtain ⟨h2, _⟩ := tryLoop_spec env a f hAll rest (initTryState a f first)
  unfold tryBlock
  rcases hloop : tryLoop env a f (initTryState a f first) rest with ⟨st, e2⟩
  rw [hloop] at h2 hs hb
  simp only at h2 hs hb
  subst h2
  by_cases hpos : 0 < st.batch.length
  · simp only [hpos, if_true, hAll]
    constructor
    · intro b hbm
      rw [sentBatches_addText] at hbm
      rcases List.mem_append.mp hbm with h1 | h2
      · exact le_of_eq (hs b h1)
      · have hb2 : b = st.batch := by simpa using h2
        rw [hb2]; exact le_of_lt hb
    · intro b hbm
      rw [sentBatches_addText, List.dropLast_concat] at hbm
      exact hs b hbm
  · simp only [hpos, if_false]
    refine ⟨fun b hbm => le_of_eq (hs b hbm), fun b hbm => hs b (List.dropLast_subset _ hbm)⟩

lemma tryStep_calls_mem (env : RemoteEnv) (a : Bool) (f : FieldName)
    (st : TryState) (d : Dict) (c : RemoteCall) :
    c ∈ (tryStep env a f st d).1.calls → c ∈ st.calls ∨ ∃ b, c = RemoteCall.addText b := by
  simp only [tryStep]
  split <;> split <;> try split
  all_goals intro h
  all_goals simp only at h
  all_goals try exact Or.inl h
  all_goals
    rcases List.mem_append.mp h with h1 | h2
    · exact Or.inl h1
    · exact Or.inr ⟨_, by simpa using h2⟩

lemma tryLoop_calls_mem (env : RemoteEnv) (a : Bool) (f : FieldName) :
    ∀ (ds : List Dict) (st : TryState) (c : RemoteCall),
      c ∈ (tryLoop env a f st ds).1.calls →
      c ∈ st.calls ∨ ∃ b, c = RemoteCall.addText b := by
  intro ds
  induction ds with
  | nil =>
    intro st c h
    simp only [tryLoop] at h
    exact Or.inl h
  | cons d ds ih =>
    intro st c h
    rcases hst : tryStep env a f st d with ⟨st2, e2⟩
    cases e2 with
    | none =>
      have hred : tryLoop env a f st (d :: ds) = tryLoop env a f st2 ds := by
        simp [tryLoop, hst]
      rw [hred] at h
      rcases ih st2 c h with h1 | h2
      · exact tryStep_calls_mem env a f st d c (by rw [hst]; exact h1)
      · exact Or.inr h2
    | some e =>
      have hred : (tryLoop env a f st (d :: ds)).1 = st2 := by
        simp [tryLoop, hst]
      rw [hred] at h
      exact tryStep_calls_mem env a f st d c (by rw [hst]; exact h)

/-- Every remote call issued inside the try block of `map_text` is an
`add_text` call. -/
lemma tryBlock_calls_addText (env : RemoteEnv) (a : Bool) (f : FieldName)
    (first : Dict) (rest : List Dict) :
    ∀ c ∈ (tryBlock env a f first rest).1.calls, ∃ b, c = RemoteCall.addText b := by
  intro c hc
  have hmem : ∀ x, x ∈ (tryLoop env a f (initTryState a f first) rest).1.calls →
      ∃ b, x = RemoteCall.addText b := by
    intro x hx
    rcases tryLoop_calls_mem env a f rest (initTryState a f first) x hx with h1 | h2
    · cases a <;> simp [initTryState] at h1
    · exact h2
  unfold tryBlock at hc
  rcases hloop : tryLoop env a f (initTryState a f first) rest with ⟨st, e2⟩
  rw [hloop] at hc
  have hmem2 : ∀ x, x ∈ st.calls → ∃ b, x = RemoteCall.addText b := by
    intro x hx
    exact hmem x (by rw [hloop]; exact hx)
  cases e2 with
  | some e => exact hmem2 c hc
  | none =>
    simp only at hc
    by_cases hpos : 0 < st.batch.length
    · rw [if_pos hpos] at hc
      cases haf : env.addFail st.nsent with
      | none =>
        rw [haf] at hc
        simp only at hc
        rcases List.mem_append.mp hc with h1 | h2
        · exact hmem2 c h1
        · exact ⟨st.batch, by simpa using h2⟩
      | some e =>
        rw [haf] at hc
        simp only at hc
        rcases List.mem_append.mp hc with h1 | h2
        · exact hmem2 c h1
        · exact ⟨st.batch, by simpa using h2⟩
    · rw [if_neg hpos] at hc
      exact hmem2 c hc

/-- True of the post-upload remote calls: `create_index` (either entry point)
and `rebuild_maps`. -/
def isPostUploadCall : RemoteCall → Bool
  | RemoteCall.createIndexText _ => true
  | RemoteCall.createIndexEmb _ => true
  | RemoteCall.rebuildMaps => true
  | _ => false

lemma tryBlock_count_delete (env : RemoteEnv) (a : Bool) (f : FieldName)
    (first : Dict) (rest : List Dict) :
    ((tryBlock env a f first rest).1.calls).count RemoteCall.deleteDataset = 0 := by
  rw [List.count_eq_zero]
  intro hmem
  rcases tryBlock_calls_addText env a f first rest _ hmem with ⟨b, hb⟩
  exact absurd hb (by simp)

lemma tryBlock_filter_post (env : RemoteEnv) (a : Bool) (f : FieldName)
    (first : Dict) (rest : List Dict) :
    ((tryBlock env a f first rest).1.calls).filter isPostUploadCall = [] := by
  rw [List.filter_eq_nil_iff]
  intro c hc
  rcases tryBlock_calls_addText env a f first rest c hc with ⟨b, hb⟩
  subst hb
  simp [isPostUploadCall]

/-- The caller-supplied arguments of `map_text` (atlas.py lines 148-165),
except the deprecated `shard_size` and `num_workers`, which the model takes
separately.  The input adapter (DataFrame / arrow table / iterable, lines
202-209) is outside the model: `data` is the already-adapted record
sequence. -/
structure TextArgs where
  data : List Dict
  indexed_field : FieldName
  id_field : Option FieldName
  name : Option String
  description : Option String
  build_topic_model : Bool
  is_public : Bool
  colorable_fields : List FieldName
  reset_project_if_exists : Bool
  add_datums_if_exists : Bool
  projection_n_neighbors : Nat
  projection_epochs : Nat
  projection_spread : Rat
  duplicate_detection : Bool
  duplicate_threshold : Rat
deriving DecidableEq

/-- The caller-supplied arguments of `map_embeddings` (atlas.py lines 20-36).
Only the shape `[n, d]` of the numpy embeddings array is observable to the
client logic (`embeddings.size == 0` is `n * d = 0`, `len(embeddings)` is
`n`); `data = none` is Python's `data=None`. -/
structure EmbArgs where
  n : Nat
  d : Nat
  data : Option (List Dict)
  id_field : Option FieldName
  name : Option String
  description : Option String
  is_public : Bool
  colorable_fields : List FieldName
  build_topic_model : Bool
  topic_label_field : Option FieldName
  reset_project_if_exists : Bool
  add_datums_if_exists : Bool
  projection_n_neighbors : Nat
  projection_epochs : Nat
  projection_spread : Rat
deriving DecidableEq

/-- Modelled from the spec: `AtlasDataset._validate_map_data_inputs` (defined
in `nomic/dataset.py`, which is not under `src/`), called by `map_text` on
line 235.  Per spec section 7 it is a fully local, synchronous check that
raises ValidationError when a requested colorable field is not present in the
data sample. -/
def validate_map_data_inputs (colorable_fields : List FieldName) (sample : Dict) :
    Option Err :=
  if colorable_fields.all (fun c => dictHasKey sample c) then none
  else some (Err.validationFailed "colorable fields must be present in data")

/-- The default description `'A description for your map.'`
(atlas.py lines 194-195). -/
def textDescription (args : TextArgs) : String :=
  args.description.getD "A description for your map."

/-- The `AtlasDataset(...)` construction of `map_text` (atlas.py lines
217-225): creates or opens the remote dataset. -/
def textCreateCall (env : RemoteEnv) (args : TextArgs) : RemoteCall :=
  RemoteCall.createDataset (args.name.getD env.random_name) (textDescription args)
    (args.id_field.getD ATLAS_DEFAULT_ID_FIELD) "text" args.is_public
    args.reset_project_if_exists args.add_datums_if_exists

/-- The arguments of the `project.create_index` call of `map_text`
(atlas.py lines 279-289): `index_name` is `name` when given, else the random
project name. -/
def textIndexParamsOf (env : RemoteEnv) (args : TextArgs) : TextIndexParams :=
  { name := args.name.getD env.random_name
    indexed_field := args.indexed_field
    colorable_fields := args.colorable_fields
    build_topic_model := args.build_topic_model
    projection_n_neighbors := args.projection_n_neighbors
    projection_epochs := args.projection_epochs
    projection_spread := args.projection_spread
    duplicate_detection := args.duplicate_detection
    duplicate_threshold := args.duplicate_threshold }

/-- The warning emitted when an identifier field is generated
(atlas.py lines 232-233 and 92-93). -/
def idWarns (a : Bool) : List Warning :=
  if a then [Warning.idFieldGenerated] else []

/-- The deprecation warnings for `shard_size` and `num_workers`
(atlas.py lines 240-243 and 111-114): emitted exactly when the deprecated
argument is passed, and nothing else. -/
def deprecationWarns (shard_size num_workers : Option Nat) : List Warning :=
  (if shard_size.isSome then [Warning.shardSizeDeprecated] else [])
    ++ (if num_workers.isSome then [Warning.numWorkersDeprecated] else [])

/-- The tail of `map_text` after the try block (atlas.py lines 269-296):
on failure, delete the dataset when it had no datums before the upload (the
unguarded `project.delete()` may itself raise, replacing the original error),
then re-raise; on success, `create_index` for a fresh dataset, else
`rebuild_maps`. -/
def mapTextFinish (env : RemoteEnv) (args : TextArgs)
    (shard_size num_workers : Option Nat) (a : Bool)
    (tb : TryState × Option Err) : RunResult :=
  match tb.2 with
  | some e =>
    if env.total_datums = 0 then
      { calls := textCreateCall env args :: tb.1.calls ++ [RemoteCall.deleteDataset]
        warnings := idWarns a ++ deprecationWarns shard_size num_workers
        err := some (env.deleteFail.getD e)
        returned := false }
    else
      { calls := textCreateCall env args :: tb.1.calls
        warnings := idWarns a ++ deprecationWarns shard_size num_workers
        err := some e
        returned := false }
  | none =>
    if env.total_datums = 0 then
      { calls := textCreateCall env args :: tb.1.calls
          ++ [RemoteCall.createIndexText (textIndexParamsOf env args)]
        warnings := idWarns a ++ deprecationWarns shard_size num_workers
        err := none
        returned := true }
    else
      { calls := textCreateCall env args :: tb.1.calls ++ [RemoteCall.rebuildMaps]
        warnings := idWarns a ++ deprecationWarns shard_size num_workers
        err := none
        returned := true }

/-- The whole of `map_text` (atlas.py lines 148-296) over the remote
environment `env`: peek the first sample (empty input returns with only a
warning, line 211-215), create the dataset (line 217-225), decide
`add_id_field` (lines 227-233), validate locally (line 235), then run the
batched upload and the post-upload phase. -/
def mapTextRun (env : RemoteEnv) (args : TextArgs)
    (shard_size num_workers : Option Nat) : RunResult :=
  match args.data with
  | [] => { calls := [], warnings := [Warning.emptyData], err := none, returned := false }
  | first :: rest =>
    match validate_map_data_inputs args.colorable_fields first with
    | some e =>
      { calls := [textCreateCall env args]
        warnings := idWarns (addIdField (args.id_field.getD ATLAS_DEFAULT_ID_FIELD) first)
        err := some e
        returned := false }
    | none =>
      mapTextFinish env args shard_size num_workers
        (addIdField (args.id_field.getD ATLAS_DEFAULT_ID_FIELD) first)
        (tryBlock env (addIdField (args.id_field.getD ATLAS_DEFAULT_ID_FIELD) first)
          (args.id_field.getD ATLAS_DEFAULT_ID_FIELD) first rest)

/-- The identifier back-fill loop of `map_embeddings` (atlas.py lines 86-91),
viewed on record contents: element `i` becomes a copy with the identifier
field set to `b64int i`.  (The aliasing behaviour of the same loop is
modelled separately by `embAugLoop`.) -/
def embAugment (id_field : FieldName) (data : List Dict) : List Dict :=
  data.enum.map (fun p => dictSet p.2 id_field (b64int p.1))

/-- The default description of `map_embeddings` (atlas.py lines 70-71). -/
def embDescription (args : EmbArgs) : String :=
  args.description.getD "A description for your map."

/-- The `AtlasDataset(...)` construction of `map_embeddings`
(atlas.py lines 96-104). -/
def embCreateCall (env : RemoteEnv) (args : EmbArgs) : RemoteCall :=
  RemoteCall.createDataset (args.name.getD env.random_name) (embDescription args)
    (args.id_field.getD ATLAS_DEFAULT_ID_FIELD) "embedding" args.is_public
    args.reset_project_if_exists args.add_datums_if_exists

/-- The arguments of the `project.create_index` call of `map_embeddings`
(atlas.py lines 131-139). -/
def embIndexParamsOf (env : RemoteEnv) (args : EmbArgs) : EmbIndexParams :=
  { name := args.name.getD env.random_name
    colorable_fields := args.colorable_fields
    build_topic_model := args.build_topic_model
    projection_n_neighbors := args.projection_n_neighbors
    projection_epochs := args.projection_epochs
    projection_spread := args.projection_spread
    topic_label_field := args.topic_label_field }

/-- Lines 80-91 of `map_embeddings`: synthesize `data` when it is `None`
(each record carrying its order-based identifier), then back-fill identifiers
when the identifier field is the default one and absent from `data[0]`.
Returns the records to upload and the `added_id_field` flag, or `none` for
the `IndexError` that `data[0]` raises on an empty `data` list. -/
def embDataAug (args : EmbArgs) : Option (List Dict × Bool) :=
  let idf := args.id_field.getD ATLAS_DEFAULT_ID_FIELD
  let p : List Dict × Bool :=
    match args.data with
    | none => ((List.range args.n).map (fun i => [(ATLAS_DEFAULT_ID_FIELD, b64int i)]), true)
    | some ds => (ds, false)
  if idf = ATLAS_DEFAULT_ID_FIELD then
    match p.1.head? with
    | none => none
    | some d0 =>
      if dictHasKey d0 idf then some p else some (embAugment idf p.1, true)
  else some p

/-- `map_embeddings` from dataset creation onwards (atlas.py lines 92-145):
dataset creation, the single `add_embeddings` call, rollback on failure
(delete when the dataset was fresh; the unguarded delete may itself raise,
replacing the original error), and the post-upload `create_index` or
`rebuild_maps`. -/
def mapEmbeddingsAfterAug (env : RemoteEnv) (args : EmbArgs)
    (shard_size num_workers : Option Nat) (data : List Dict)
    (added_id_field : Bool) : RunResult :=
  match env.addFail 0 with
  | some e =>
    if env.total_datums = 0 then
      { calls := [embCreateCall env args,
          RemoteCall.addEmbeddings args.n args.d data, RemoteCall.deleteDataset]
        warnings := idWarns added_id_field ++ deprecationWarns shard_size num_workers
        err := some (env.deleteFail.getD e)
        returned := false }
    else
      { calls := [embCreateCall env args, RemoteCall.addEmbeddings args.n args.d data]
        warnings := idWarns added_id_field ++ deprecationWarns shard_size num_workers
        err := some e
        returned := false }
  | none =>
    if env.total_datums = 0 then
      { calls := [embCreateCall env args, RemoteCall.addEmbeddings args.n args.d data,
          RemoteCall.createIndexEmb (embIndexParamsOf env args)]
        warnings := idWarns added_id_field ++ deprecationWarns shard_size num_workers
        err := none
        returned := true }
    else
      { calls := [embCreateCall env args, RemoteCall.addEmbeddings args.n args.d data,
          RemoteCall.rebuildMaps]
        warnings := idWarns added_id_field ++ deprecationWarns shard_size num_workers
        err := none
        returned := true }

/-- The whole of `map_embeddings` (atlas.py lines 20-145) over the remote
environment `env`: the empty-embeddings check raises (line 63-64), then
identifier handling (lines 80-93) and the upload. -/
def mapEmbeddingsRun (env : RemoteEnv) (args : EmbArgs)
    (shard_size num_workers : Option Nat) : RunResult :=
  if args.n * args.d = 0 then
    { calls := [], warnings := [], err := some Err.emptyEmbeddings, returned := false }
  else
    match embDataAug args with
    | none => { calls := [], warnings := [], err := some Err.indexError, returned := false }
    | some pa => mapEmbeddingsAfterAug env args shard_size num_workers pa.1 pa.2

/-- A heap of dict objects, making Python object identity explicit: an
address is an index into the heap, and the caller's `data` list is a list of
addresses. -/
abbrev Heap := List Dict

/-- The identifier back-fill loop of `map_embeddings` (atlas.py lines 86-91)
over an explicit heap.  For each position, `data[i] = data[i].copy()`
allocates a fresh copy of the dict that `data[i]` refers to and rebinds the
caller's list element to it, then `data[i][id_field] = b64int(i)` sets the
identifier on the copy.  Returns the final heap and the new contents of the
caller's list; `i` is the loop counter. -/
def embAugLoop (id_field : FieldName) : Heap → List Nat → Nat → Heap × List Nat
  | h, [], _ => (h, [])
  | h, addr :: as, i =>
    let h2 := h ++ [dictSet (h.getD addr []) id_field (b64int i)]
    let r := embAugLoop id_field h2 as (i + 1)
    (r.1, h.length :: r.2)

/-- One record of the `map_text` augmentation (atlas.py lines 256-259) over
an explicit heap: `d = d.copy()` allocates a copy and `d[id_field] = ...`
sets the identifier on the copy; the local name is rebound, no caller
container is written. -/
def textAugStep (id_field : FieldName) (h : Heap) (addr : Nat) (k : Nat) : Heap × Nat :=
  (h ++ [dictSet (h.getD addr []) id_field (b64int k)], h.length)

lemma embAugLoop_heap_ext (id_field : FieldName) :
    ∀ (as : List Nat) (h : Heap) (i : Nat),
      ∃ ext, (embAugLoop id_field h as i).1 = h ++ ext := by
  intro as
  induction as with
  | nil => intro h i; exact ⟨[], by simp [embAugLoop]⟩
  | cons addr as ih =>
    intro h i
    obtain ⟨ext, hext⟩ := ih (h ++ [dictSet (h.getD addr []) id_field (b64int i)]) (i + 1)
    exact ⟨[dictSet (h.getD addr []) id_field (b64int i)] ++ ext, by
      simp only [embAugLoop]
      rw [hext, List.append_assoc]⟩

/-- The heap entries at pre-existing addresses are untouched by the
back-fill loop: the caller's original dict objects are never mutated. -/
lemma embAugLoop_preserves (id_field : FieldName) (as : List Nat) (h : Heap)
    (i : Nat) (addr : Nat) (haddr : addr < h.length) :
    (embAugLoop id_field h as i).1.getD addr [] = h.getD addr [] := by
  obtain ⟨ext, hext⟩ := embAugLoop_heap_ext id_field as h i
  rw [hext]
  exact List.getD_append h ext [] addr haddr

lemma embAugLoop_result (id_field : FieldName) :
    ∀ (as : List Nat) (h : Heap) (i : Nat),
      (∀ r ∈ as, r < h.length) →
      (embAugLoop id_field h as i).2.length = as.length ∧
      ∀ j, j < as.length →
        (embAugLoop id_field h as i).1.getD ((embAugLoop id_field h as i).2.getD j 0) []
          = dictSet (h.getD (as.getD j 0) []) id_field (b64int (i + j)) := by
  intro as
  induction as with
  | nil =>
    intro h i _
    exact ⟨rfl, fun j hj => absurd hj (Nat.not_lt_zero j)⟩
  | cons addr as ih =>
    intro h i href
    have haddr : addr < h.length := href addr (List.mem_cons_self addr as)
    have href2 : ∀ r ∈ as, r < (h ++ [dictSet (h.getD addr []) id_field (b64int i)]).length := by
      intro r hr
      have : r < h.length := href r (List.mem_cons_of_mem addr hr)
      simp only [List.length_append, List.length_singleton]
      omega
    obtain ⟨ihlen, ihget⟩ :=
      ih (h ++ [dictSet (h.getD addr []) id_field (b64int i)]) (i + 1) href2
    constructor
    · simp only [embAugLoop, List.length_cons]
      rw [ihlen]
    · intro j hj
      cases j with
      | zero =>
        simp only [embAugLoop, List.getD_cons_zero, Nat.add_zero]
        have hpres := embAugLoop_preserves id_field as
          (h ++ [dictSet (h.getD addr []) id_field (b64int i)]) (i + 1) h.length
          (by simp)
        simp only [embAugLoop] at hpres ⊢
        rw [hpres]
        rw [List.getD_append_right h _ [] h.length (le_refl _)]
        simp
      | succ j2 =>
        have hj2 : j2 < as.length := Nat.lt_of_succ_lt_succ hj
        have := ihget j2 hj2
        simp only [embAugLoop, List.getD_cons_succ]
        rw [this]
        have hsmall : as.getD j2 0 < h.length := by
          by_cases hin : j2 < as.length
          · exact href (as.getD j2 0) (by
              rw [List.getD_eq_getElem as 0 hin]
              exact List.mem_cons_of_mem addr (List.getElem_mem hin))
          · omega
        rw [List.getD_append h _ [] (as.getD j2 0) hsmall]
        have harith : i + 1 + j2 = i + (j2 + 1) := by omega
        rw [harith]

lemma augFrom_getD (f : FieldName) :
    ∀ (ds : List Dict) (k i : Nat), i < ds.length →
      (augFrom true f k ds).getD i [] = dictSet (ds.getD i []) f (b64int (k + i)) := by
  intro ds
  induction ds with
  | nil => intro k i hi; exact absurd hi (Nat.not_lt_zero i)
  | cons d ds ih =>
    intro k i hi
    cases i with
    | zero => simp [augFrom]
    | succ j =>
      have hj : j < ds.length := Nat.lt_of_succ_lt_succ hi
      have harith : k + 1 + j = k + (j + 1) := by omega
      simp only [augFrom, List.getD_cons_succ]
      rw [ih (k + 1) j hj, harith]

lemma augFrom_id (f : FieldName) (ds : List Dict) (i : Nat) (hi : i < ds.length) :
    dictGet ((augFrom true f 0 ds).getD i []) f = some (b64int i) := by
  rw [augFrom_getD f ds 0 i hi, Nat.zero_add]
  exact dictGet_dictSet _ f _

lemma enumFrom_map_dictSet (f : FieldName) :
    ∀ (ds : List Dict) (k : Nat),
      (List.enumFrom k ds).map (fun p => dictSet p.2 f (b64int p.1))
        = augFrom true f k ds := by
  intro ds
  induction ds with
  | nil => intro k; rfl
  | cons d ds ih => intro k; simp [List.enumFrom, augFrom, ih]

lemma embAugment_eq_augFrom (f : FieldName) (ds : List Dict) :
    embAugment f ds = augFrom true f 0 ds := by
  rw [embAugment, ← enumFrom_map_dictSet f ds 0]
  rfl

/-- All the records `map_text` hands to `add_text` over one upload, in upload
order, for the default-identifier configuration. -/
def textUploadRecords (env : RemoteEnv) (first : Dict) (rest : List Dict) : List Dict :=
  (sentBatches (tryBlock env (addIdField ATLAS_DEFAULT_ID_FIELD first)
      ATLAS_DEFAULT_ID_FIELD first rest).1.calls).flatten

/-- Concrete record, argument and environment examples used by the witness
theorems. -/
def egFirst : Dict := [("text", Value.str "hello")]

def egSecond : Dict := [("text", Value.str "world")]

def egEnvOk : RemoteEnv :=
  { total_datums := 0, addFail := fun _ => none, deleteFail := none,
    random_name := "random-name" }

/-- C2: for an input whose identifier field is the default field and absent
from the first record, `map_text` assigns the record at overall position `i`
(across batch boundaries, in iteration order) the encoded identifier
`b64int i`, no two positions carry the same identifier, and the identifier
back-fill of `map_embeddings` does the same on its `data` list. -/
theorem C2_identifier_assignment (env : RemoteEnv) (first : Dict) (rest : List Dict)
    (hAll : ∀ k, env.addFail k = none)
    (hid : dictHasKey first ATLAS_DEFAULT_ID_FIELD = false) :
    (textUploadRecords env first rest).length = (first :: rest).length ∧
    (∀ i, i < (textUploadRecords env first rest).length →
       dictGet ((textUploadRecords env first rest).getD i []) ATLAS_DEFAULT_ID_FIELD
         = some (b64int i)) ∧
    (∀ i j, i < (textUploadRecords env first rest).length →
       j < (textUploadRecords env first rest).length → i ≠ j →
       dictGet ((textUploadRecords env first rest).getD i []) ATLAS_DEFAULT_ID_FIELD
         ≠ dictGet ((textUploadRecords env first rest).getD j []) ATLAS_DEFAULT_ID_FIELD) ∧
    (∀ (ds : List Dict) (i : Nat), i < ds.length →
       dictGet ((embAugment ATLAS_DEFAULT_ID_FIELD ds).getD i []) ATLAS_DEFAULT_ID_FIELD
         = some (b64int i)) := by
  have haf : addIdField ATLAS_DEFAULT_ID_FIELD first = true := by
    simp [addIdField, hid]
  have hrecs : textUploadRecords env first rest
      = augFrom true ATLAS_DEFAULT_ID_FIELD 0 (first :: rest) := by
    unfold textUploadRecords
    rw [haf]
    exact (tryBlock_spec env true ATLAS_DEFAULT_ID_FIELD hAll first rest).2
  have hlen : (textUploadRecords env first rest).length = (first :: rest).length := by
    rw [hrecs, augFrom_length]
  refine ⟨hlen, ?_, ?_, ?_⟩
  · intro i hi
    rw [hlen] at hi
    rw [hrecs]
    exact augFrom_id ATLAS_DEFAULT_ID_FIELD (first :: rest) i hi
  · intro i j hi hj hij
    rw [hlen] at hi hj
    rw [hrecs, augFrom_id ATLAS_DEFAULT_ID_FIELD (first :: rest) i hi,
      augFrom_id ATLAS_DEFAULT_ID_FIELD (first :: rest) j hj]
    intro heq
    simp only [b64int, Option.some_inj, Value.encId.injEq] at heq
    exact hij heq
  · intro ds i hi
    rw [embAugment_eq_augFrom]
    exact augFrom_id ATLAS_DEFAULT_ID_FIELD ds i hi

theorem C2_identifier_assignment_witness :
    (textUploadRecords egEnvOk egFirst [egSecond]).length
      = (egFirst :: [egSecond]).length :=
  (C2_identifier_assignment egEnvOk egFirst [egSecond] (fun _ => rfl) (by decide)).1

/-- C3: every batch `map_text` passes to the remote add-records call has at
most `upload_batch_size` (100000) records, and every batch other than the
last has exactly `upload_batch_size` records (so when the input exceeds
100000 records, every non-final batch is full). -/
theorem C3_batch_size_invariant (env : RemoteEnv) (a : Bool) (f : FieldName)
    (first : Dict) (rest : List Dict) (hAll : ∀ k, env.addFail k = none) :
    (∀ b ∈ sentBatches (tryBlock env a f first rest).1.calls,
        b.length ≤ upload_batch_size) ∧
    (∀ b ∈ (sentBatches (tryBlock env a f first rest).1.calls).dropLast,
        b.length = upload_batch_size) :=
  tryBlock_sizes env a f hAll first rest

theorem C3_batch_size_invariant_witness :
    ([[("text", Value.str "hello"), (ATLAS_DEFAULT_ID_FIELD, b64int 0)],
      [("text", Value.str "world"), (ATLAS_DEFAULT_ID_FIELD, b64int 1)]] : List Dict).length
      ≤ upload_batch_size :=
  (C3_batch_size_invariant egEnvOk true ATLAS_DEFAULT_ID_FIELD egFirst [egSecond]
      (fun _ => rfl)).1 _ (by decide)

/-- C4: concatenating the batches `map_text` passes to the remote add-records
call, in the order they are sent, yields exactly the (possibly
identifier-augmented) input sequence — no record dropped, duplicated or
reordered, the peeked first record included. -/
theorem C4_batches_concat_to_input (env : RemoteEnv) (a : Bool) (f : FieldName)
    (first : Dict) (rest : List Dict) (hAll : ∀ k, env.addFail k = none) :
    (sentBatches (tryBlock env a f first rest).1.calls).flatten
      = augFrom a f 0 (first :: rest) :=
  (tryBlock_spec env a f hAll first rest).2

theorem C4_batches_concat_to_input_witness :
    (sentBatches (tryBlock egEnvOk true ATLAS_DEFAULT_ID_FIELD egFirst [egSecond]).1.calls).flatten
      = augFrom true ATLAS_DEFAULT_ID_FIELD 0 (egFirst :: [egSecond]) :=
  C4_batches_concat_to_input egEnvOk true ATLAS_DEFAULT_ID_FIELD egFirst [egSecond]
    (fun _ => rfl)

/-- Behaviour of `map_text` when some `add_text` call raises: the rollback
policy of atlas.py lines 269-273. -/
lemma mapTextRun_fail (env : RemoteEnv) (args : TextArgs) (s n : Option Nat)
    (first : Dict) (rest : List Dict) (e : Err)
    (hdata : args.data = first :: rest)
    (hval : validate_map_data_inputs args.colorable_fields first = none)
    (htry : (tryBlock env (addIdField (args.id_field.getD ATLAS_DEFAULT_ID_FIELD) first)
        (args.id_field.getD ATLAS_DEFAULT_ID_FIELD) first rest).2 = some e) :
    ((mapTextRun env args s n).calls.count RemoteCall.deleteDataset
        = if env.total_datums = 0 then 1 else 0) ∧
    (mapTextRun env args s n).err
      = some (if env.total_datums = 0 then env.deleteFail.getD e else e) := by
  have hcount := tryBlock_count_delete env
    (addIdField (args.id_field.getD ATLAS_DEFAULT_ID_FIELD) first)
    (args.id_field.getD ATLAS_DEFAULT_ID_FIELD) first rest
  simp only [mapTextRun, hdata, hval]
  simp only [mapTextFinish, htry]
  by_cases h0 : env.total_datums = 0
  · simp [h0, List.count_cons, List.count_append, hcount, textCreateCall, beq_iff_eq]
  · simp [h0, List.count_cons, List.count_append, hcount, textCreateCall, beq_iff_eq]

/-- Behaviour of `map_text` when every `add_text` call succeeds: the
post-upload phase of atlas.py lines 277-293. -/
lemma mapTextRun_ok (env : RemoteEnv) (args : TextArgs) (s n : Option Nat)
    (first : Dict) (rest : List Dict)
    (hdata : args.data = first :: rest)
    (hval : validate_map_data_inputs args.colorable_fields first = none)
    (htry : (tryBlock env (addIdField (args.id_field.getD ATLAS_DEFAULT_ID_FIELD) first)
        (args.id_field.getD ATLAS_DEFAULT_ID_FIELD) first rest).2 = none) :
    ((mapTextRun env args s n).calls.filter isPostUploadCall
        = if env.total_datums = 0
          then [RemoteCall.createIndexText (textIndexParamsOf env args)]
          else [RemoteCall.rebuildMaps]) ∧
    (mapTextRun env args s n).err = none ∧
    (mapTextRun env args s n).returned = true := by
  have hfil := tryBlock_filter_post env
    (addIdField (args.id_field.getD ATLAS_DEFAULT_ID_FIELD) first)
    (args.id_field.getD ATLAS_DEFAULT_ID_FIELD) first rest
  simp only [mapTextRun, hdata, hval]
  simp only [mapTextFinish, htry]
  by_cases h0 : env.total_datums = 0
  · simp [h0, List.filter_append, hfil, textCreateCall, isPostUploadCall]
  · simp [h0, List.filter_append, hfil, textCreateCall, isPostUploadCall]

/-- Behaviour of `map_embeddings` from dataset creation onwards when the
add-records call raises: the rollback policy of atlas.py lines 121-125. -/
lemma afterAug_fail (env : RemoteEnv) (args : EmbArgs) (s n : Option Nat)
    (dat : List Dict) (add : Bool) (e : Err)
    (hfail : env.addFail 0 = some e) :
    ((mapEmbeddingsAfterAug env args s n dat add).calls.count RemoteCall.deleteDataset
        = if env.total_datums = 0 then 1 else 0) ∧
    (mapEmbeddingsAfterAug env args s n dat add).err
      = some (if env.total_datums = 0 then env.deleteFail.getD e else e) := by
  simp only [mapEmbeddingsAfterAug, hfail]
  by_cases h0 : env.total_datums = 0
  · simp [h0, List.count_cons, embCreateCall, beq_iff_eq]
  · simp [h0, List.count_cons, embCreateCall, beq_iff_eq]

/-- Behaviour of `map_embeddings` from dataset creation onwards when the
add-records call succeeds: the post-upload phase of atlas.py lines 129-142. -/
lemma afterAug_ok (env : RemoteEnv) (args : EmbArgs) (s n : Option Nat)
    (dat : List Dict) (add : Bool)
    (hok : env.addFail 0 = none) :
    ((mapEmbeddingsAfterAug env args s n dat add).calls.filter isPostUploadCall
        = if env.total_datums = 0
          then [RemoteCall.createIndexEmb (embIndexParamsOf env args)]
          else [RemoteCall.rebuildMaps]) ∧
    (mapEmbeddingsAfterAug env args s n dat add).err = none ∧
    (mapEmbeddingsAfterAug env args s n dat add).returned = true := by
  simp only [mapEmbeddingsAfterAug, hok]
  by_cases h0 : env.total_datums = 0
  · simp [h0, embCreateCall, isPostUploadCall]
  · simp [h0, embCreateCall, isPostUploadCall]

/-- When the embeddings array is non-empty and `data` is not the empty list,
`map_embeddings` reaches the upload phase. -/
lemma mapEmbeddingsRun_eq_afterAug (env : RemoteEnv) (args : EmbArgs)
    (s n : Option Nat) (hn : args.n * args.d ≠ 0) (hne : args.data ≠ some []) :
    ∃ pa : List Dict × Bool,
      embDataAug args = some pa ∧
      mapEmbeddingsRun env args s n = mapEmbeddingsAfterAug env args s n pa.1 pa.2 := by
  have hsome : ∃ pa, embDataAug args = some pa := by
    have hn0 : args.n ≠ 0 := by
      intro h
      exact hn (by rw [h, Nat.zero_mul])
    unfold embDataAug
    by_cases hidf : args.id_field.getD ATLAS_DEFAULT_ID_FIELD = ATLAS_DEFAULT_ID_FIELD
    · simp only [hidf, if_true]
      cases hdat : args.data with
      | none =>
        simp only
        cases hnn : args.n with
        | zero => exact absurd hnn hn0
        | succ m =>
          simp only [List.range_succ_eq_map, List.map_cons, List.head?]
          split <;> exact ⟨_, rfl⟩
      | some ds =>
        cases ds with
        | nil => exact absurd hdat hne
        | cons d0 ds2 =>
          simp only [List.head?]
          split <;> exact ⟨_, rfl⟩
    · simp only [hidf, if_false]
      exact ⟨_, rfl⟩
  obtain ⟨pa, hpa⟩ := hsome
  refine ⟨pa, hpa, ?_⟩
  simp only [mapEmbeddingsRun, hn, if_false, hpa]

def egTextArgs : TextArgs :=
  { data := [egFirst, egSecond]
    indexed_field := "text"
    id_field := none
    name := some "my-project"
    description := none
    build_topic_model := true
    is_public := true
    colorable_fields := []
    reset_project_if_exists := false
    add_datums_if_exists := false
    projection_n_neighbors := 15
    projection_epochs := 50
    projection_spread := 1
    duplicate_detection := true
    duplicate_threshold := 0 }

def egEmbArgs : EmbArgs :=
  { n := 2
    d := 3
    data := some [egFirst, egSecond]
    id_field := none
    name := some "my-project"
    description := none
    is_public := true
    colorable_fields := []
    build_topic_model := true
    topic_label_field := none
    reset_project_if_exists := false
    add_datums_if_exists := false
    projection_n_neighbors := 15
    projection_epochs := 50
    projection_spread := 1 }

def egEnvAddFail : RemoteEnv :=
  { total_datums := 0, addFail := fun _ => some (Err.remote "add failed"),
    deleteFail := none, random_name := "random-name" }

def egEnvDelFail : RemoteEnv :=
  { total_datums := 0, addFail := fun _ => some (Err.remote "add failed"),
    deleteFail := some (Err.remote "delete failed"), random_name := "random-name" }

def egEnvInterrupt : RemoteEnv :=
  { total_datums := 0, addFail := fun _ => some Err.keyboardInterrupt,
    deleteFail := some (Err.remote "delete failed"), random_name := "random-name" }

/-- C1 counterexample: on a fresh dataset whose add-records call raises
`remote "add failed"` and whose (unguarded) delete itself raises
`remote "delete failed"`, the error propagating out of `map_text` is the
delete error, not the original one — refuting "in both cases the original
error propagates" as stated. -/
theorem C1_counterexample :
    egEnvDelFail.total_datums = 0 ∧
    egEnvDelFail.addFail 0 = some (Err.remote "add failed") ∧
    (mapTextRun egEnvDelFail egTextArgs none none).err
      = some (Err.remote "delete failed") ∧
    (mapTextRun egEnvDelFail egTextArgs none none).err
      ≠ some (Err.remote "add failed") := by
  refine ⟨rfl, rfl, ?_, ?_⟩ <;> decide

/-- C1 (amended): for every upload (either entry point) in which the remote
add-records call raises, delete is invoked exactly once when the dataset had
`total_datums = 0` before the upload and never when `total_datums > 0`, and
the original error propagates to the caller whenever the delete call does
not itself raise (a raising delete replaces the error — see C10). -/
theorem C1_rollback_policy (env : RemoteEnv) (targs : TextArgs) (eargs : EmbArgs)
    (s n : Option Nat) (first : Dict) (rest : List Dict) (e eE : Err)
    (hdel : env.deleteFail = none)
    (hdata : targs.data = first :: rest)
    (hval : validate_map_data_inputs targs.colorable_fields first = none)
    (htry : (tryBlock env (addIdField (targs.id_field.getD ATLAS_DEFAULT_ID_FIELD) first)
        (targs.id_field.getD ATLAS_DEFAULT_ID_FIELD) first rest).2 = some e)
    (hn : eargs.n * eargs.d ≠ 0) (hne : eargs.data ≠ some [])
    (hfailE : env.addFail 0 = some eE) :
    ((mapTextRun env targs s n).calls.count RemoteCall.deleteDataset
        = if env.total_datums = 0 then 1 else 0) ∧
    (mapTextRun env targs s n).err = some e ∧
    ((mapEmbeddingsRun env eargs s n).calls.count RemoteCall.deleteDataset
        = if env.total_datums = 0 then 1 else 0) ∧
    (mapEmbeddingsRun env eargs s n).err = some eE := by
  obtain ⟨hc1, he1⟩ := mapTextRun_fail env targs s n first rest e hdata hval htry
  obtain ⟨pa, hpa, heq⟩ := mapEmbeddingsRun_eq_afterAug env eargs s n hn hne
  obtain ⟨hc2, he2⟩ := afterAug_fail env eargs s n pa.1 pa.2 eE hfailE
  rw [heq]
  refine ⟨hc1, ?_, hc2, ?_⟩
  · rw [he1, hdel]
    by_cases h0 : env.total_datums = 0 <;> simp [h0]
  · rw [he2, hdel]
    by_cases h0 : env.total_datums = 0 <;> simp [h0]

theorem C1_rollback_policy_witness :
    (mapTextRun egEnvAddFail egTextArgs none none).err
      = some (Err.remote "add failed") :=
  (C1_rollback_policy egEnvAddFail egTextArgs egEmbArgs none none egFirst [egSecond]
      (Err.remote "add failed") (Err.remote "add failed") rfl rfl rfl (by decide)
      (by decide) (by decide) rfl).2.1

/-- C5: for every upload (either entry point) in which all batches succeed,
exactly one post-upload remote call is issued — `create_index` with the
caller's projection and topic parameters when the dataset had
`total_datums = 0` before the upload, `rebuild_maps` (and no `create_index`)
when `total_datums > 0` — and no error propagates. -/
theorem C5_post_upload_call (env : RemoteEnv) (targs : TextArgs) (eargs : EmbArgs)
    (s n : Option Nat) (first : Dict) (rest : List Dict)
    (hdata : targs.data = first :: rest)
    (hval : validate_map_data_inputs targs.colorable_fields first = none)
    (htry : (tryBlock env (addIdField (targs.id_field.getD ATLAS_DEFAULT_ID_FIELD) first)
        (targs.id_field.getD ATLAS_DEFAULT_ID_FIELD) first rest).2 = none)
    (hn : eargs.n * eargs.d ≠ 0) (hne : eargs.data ≠ some [])
    (hok : env.addFail 0 = none) :
    ((mapTextRun env targs s n).calls.filter isPostUploadCall
        = if env.total_datums = 0
          then [RemoteCall.createIndexText (textIndexParamsOf env targs)]
          else [RemoteCall.rebuildMaps]) ∧
    (mapTextRun env targs s n).err = none ∧
    ((mapEmbeddingsRun env eargs s n).calls.filter isPostUploadCall
        = if env.total_datums = 0
          then [RemoteCall.createIndexEmb (embIndexParamsOf env eargs)]
          else [RemoteCall.rebuildMaps]) ∧
    (mapEmbeddingsRun env eargs s n).err = none := by
  obtain ⟨hf1, he1, _⟩ := mapTextRun_ok env targs s n first rest hdata hval htry
  obtain ⟨pa, hpa, heq⟩ := mapEmbeddingsRun_eq_afterAug env eargs s n hn hne
  obtain ⟨hf2, he2, _⟩ := afterAug_ok env eargs s n pa.1 pa.2 hok
  rw [heq]
  exact ⟨hf1, he1, hf2, he2⟩

theorem C5_post_upload_call_witness :
    (mapTextRun egEnvOk egTextArgs none none).calls.filter isPostUploadCall
      = [RemoteCall.createIndexText (textIndexParamsOf egEnvOk egTextArgs)] :=
  (C5_post_upload_call egEnvOk egTextArgs egEmbArgs none none egFirst [egSecond]
      rfl rfl (by decide) (by decide) (by decide) rfl).1

/-- C10: the rollback handler catches every exception kind, not only remote
errors: whenever the batch-upload phase of a fresh dataset
(`total_datums = 0` before the upload) raises any error `e` — including a
non-remote one such as a keyboard interrupt — delete is attempted exactly
once and `e` is re-raised; the delete call is unguarded, so when delete
itself raises, the delete error propagates in place of `e`.  Stated for both
entry points. -/
theorem C10_rollback_catches_all (env : RemoteEnv) (targs : TextArgs) (eargs : EmbArgs)
    (s n : Option Nat) (first : Dict) (rest : List Dict) (e eE : Err)
    (hfresh : env.total_datums = 0)
    (hdata : targs.data = first :: rest)
    (hval : validate_map_data_inputs targs.colorable_fields first = none)
    (htry : (tryBlock env (addIdField (targs.id_field.getD ATLAS_DEFAULT_ID_FIELD) first)
        (targs.id_field.getD ATLAS_DEFAULT_ID_FIELD) first rest).2 = some e)
    (hn : eargs.n * eargs.d ≠ 0) (hne : eargs.data ≠ some [])
    (hfailE : env.addFail 0 = some eE) :
    (mapTextRun env targs s n).calls.count RemoteCall.deleteDataset = 1 ∧
    (mapTextRun env targs s n).err = some (env.deleteFail.getD e) ∧
    (mapEmbeddingsRun env eargs s n).calls.count RemoteCall.deleteDataset = 1 ∧
    (mapEmbeddingsRun env eargs s n).err = some (env.deleteFail.getD eE) := by
  obtain ⟨hc1, he1⟩ := mapTextRun_fail env targs s n first rest e hdata hval htry
  obtain ⟨pa, hpa, heq⟩ := mapEmbeddingsRun_eq_afterAug env eargs s n hn hne
  obtain ⟨hc2, he2⟩ := afterAug_fail env eargs s n pa.1 pa.2 eE hfailE
  rw [heq]
  rw [hfresh] at hc1 he1 hc2 he2
  simp only [if_pos rfl] at hc1 he1 hc2 he2
  exact ⟨hc1, he1, hc2, he2⟩

theorem C10_rollback_catches_all_witness :
    (mapTextRun egEnvInterrupt egTextArgs none none).err
      = some (Err.remote "delete failed") :=
  (C10_rollback_catches_all egEnvInterrupt egTextArgs egEmbArgs none none
      egFirst [egSecond] Err.keyboardInterrupt Err.keyboardInterrupt rfl rfl rfl
      (by decide) (by decide) (by decide) rfl).2.1

/-- C6 counterexample: `map_embeddings` on an empty embeddings array raises
the `Exception` of atlas.py lines 63-64 instead of surfacing a warning (no
Dataset Session is created, but the "raises no exception" part of the claim
fails on the embeddings path). -/
theorem C6_counterexample :
    (mapEmbeddingsRun egEnvOk { egEmbArgs with n := 0 } none none).err
      = some Err.emptyEmbeddings ∧
    (mapEmbeddingsRun egEnvOk { egEmbArgs with n := 0 } none none).calls = [] := by
  constructor <;> decide

/-- C6 (amended): an input yielding zero records creates no Dataset Session
and issues no remote call in either path; the text path raises nothing and
surfaces only the empty-data warning, while the embeddings path raises the
empty-embeddings exception (still before any remote side effect) instead of
warning. -/
theorem C6_empty_input (env : RemoteEnv) (targs : TextArgs) (eargs : EmbArgs)
    (s n : Option Nat) :
    mapTextRun env { targs with data := [] } s n
      = { calls := [], warnings := [Warning.emptyData], err := none, returned := false } ∧
    mapEmbeddingsRun env { eargs with n := 0 } s n
      = { calls := [], warnings := [], err := some Err.emptyEmbeddings,
          returned := false } := by
  constructor
  · rfl
  · simp [mapEmbeddingsRun]

def egBadColorArgs : TextArgs := { egTextArgs with colorable_fields := ["missing"] }

/-- C7 counterexample: with a colorable field absent from the data, the
ValidationError of `map_text` is raised only after the Dataset Session has
been created (atlas.py line 217 precedes the validation on line 235), so a
remote call does occur before the error — refuting the claim as stated. -/
theorem C7_counterexample :
    (mapTextRun egEnvOk egBadColorArgs none none).err
      = some (Err.validationFailed "colorable fields must be present in data") ∧
    (mapTextRun egEnvOk egBadColorArgs none none).calls ≠ [] := by
  constructor <;> decide

/-- C7 (amended): when the colorable-field validation fails, the
ValidationError propagates and no records are uploaded, no delete and no
index call is issued — but the Dataset Session has already been created:
exactly one remote call, the dataset creation, precedes the error. -/
theorem C7_validation_after_create (env : RemoteEnv) (args : TextArgs)
    (s n : Option Nat) (first : Dict) (rest : List Dict) (e : Err)
    (hdata : args.data = first :: rest)
    (hval : validate_map_data_inputs args.colorable_fields first = some e) :
    (mapTextRun env args s n).err = some e ∧
    (mapTextRun env args s n).calls = [textCreateCall env args] := by
  simp only [mapTextRun, hdata, hval]
  exact ⟨trivial, trivial⟩

theorem C7_validation_after_create_witness :
    (mapTextRun egEnvOk egBadColorArgs none none).err
      = some (Err.validationFailed "colorable fields must be present in data") :=
  (C7_validation_after_create egEnvOk egBadColorArgs none none egFirst [egSecond]
      (Err.validationFailed "colorable fields must be present in data")
      rfl (by decide)).1

/-- C8 counterexample: running the `map_embeddings` back-fill loop on a
caller list holding one empty dict, the list afterwards refers to a
different dict whose contents differ from the original — `data[0]` observably
changed from the empty dict to one carrying the synthesized identifier,
refuting "the caller's ... containers are observably unchanged". -/
theorem C8_counterexample :
    (embAugLoop ATLAS_DEFAULT_ID_FIELD [[]] [0] 0).2 ≠ [0] ∧
    (embAugLoop ATLAS_DEFAULT_ID_FIELD [[]] [0] 0).1.getD
        ((embAugLoop ATLAS_DEFAULT_ID_FIELD [[]] [0] 0).2.getD 0 0) []
      ≠ ([] : Dict) := by
  constructor <;> decide

/-- C8 (amended): neither entry point mutates a caller-supplied record
object: every heap entry at a pre-existing address is unchanged, and each
augmented record is a fresh shallow copy with the identifier field set.  But
`map_embeddings` rebinds the elements of the caller's `data` list to the
augmented copies (so that container observably changes — see the
counterexample), while the `map_text` loop rebinds only its loop-local name
and writes to no caller container. -/
theorem C8_no_record_mutation (f : FieldName) (h : Heap) (as : List Nat)
    (addr k : Nat) (haddr : addr < h.length) (href : ∀ r ∈ as, r < h.length) :
    ((embAugLoop f h as 0).1.getD addr [] = h.getD addr []) ∧
    (embAugLoop f h as 0).2.length = as.length ∧
    (∀ j, j < as.length →
       (embAugLoop f h as 0).1.getD ((embAugLoop f h as 0).2.getD j 0) []
         = dictSet (h.getD (as.getD j 0) []) f (b64int j)) ∧
    ((textAugStep f h addr k).1.getD addr [] = h.getD addr []) ∧
    (textAugStep f h addr k).1.getD (textAugStep f h addr k).2 []
      = dictSet (h.getD addr []) f (b64int k) := by
  obtain ⟨hlen, hget⟩ := embAugLoop_result f as h 0 href
  refine ⟨embAugLoop_preserves f as h 0 addr haddr, hlen, ?_, ?_, ?_⟩
  · intro j hj
    have := hget j hj
    rwa [Nat.zero_add] at this
  · exact List.getD_append h _ [] addr haddr
  · simp only [textAugStep]
    rw [List.getD_append_right h _ [] h.length (le_refl _)]
    simp

theorem C8_no_record_mutation_witness :
    (embAugLoop ATLAS_DEFAULT_ID_FIELD [[]] [0] 0).1.getD 0 []
      = ([[]] : Heap).getD 0 [] :=
  (C8_no_record_mutation ATLAS_DEFAULT_ID_FIELD [[]] [0] 0 0 (by decide) (by decide)).1

lemma mapTextFinish_deprecated (env : RemoteEnv) (args : TextArgs)
    (s1 n1 s2 n2 : Option Nat) (a : Bool) (tb : TryState × Option Err) :
    (mapTextFinish env args s1 n1 a tb).calls = (mapTextFinish env args s2 n2 a tb).calls ∧
    (mapTextFinish env args s1 n1 a tb).err = (mapTextFinish env args s2 n2 a tb).err ∧
    (mapTextFinish env args s1 n1 a tb).returned
      = (mapTextFinish env args s2 n2 a tb).returned := by
  unfold mapTextFinish
  rcases tb with ⟨st, e2⟩
  cases e2 <;> by_cases h0 : env.total_datums = 0 <;> simp [h0]

lemma afterAug_deprecated (env : RemoteEnv) (args : EmbArgs)
    (s1 n1 s2 n2 : Option Nat) (dat : List Dict) (add : Bool) :
    (mapEmbeddingsAfterAug env args s1 n1 dat add).calls
      = (mapEmbeddingsAfterAug env args s2 n2 dat add).calls ∧
    (mapEmbeddingsAfterAug env args s1 n1 dat add).err
      = (mapEmbeddingsAfterAug env args s2 n2 dat add).err ∧
    (mapEmbeddingsAfterAug env args s1 n1 dat add).returned
      = (mapEmbeddingsAfterAug env args s2 n2 dat add).returned := by
  unfold mapEmbeddingsAfterAug
  cases env.addFail 0 <;> by_cases h0 : env.total_datums = 0 <;> simp [h0]

/-- C9: two calls to either upload operation that differ only in the
deprecated `shard_size` and `num_workers` arguments issue the same sequence
of remote calls, propagate the same error, and return the same way — the
deprecated values influence only the emitted warnings. -/
theorem C9_deprecated_args_ignored (env : RemoteEnv) (targs : TextArgs)
    (eargs : EmbArgs) (s1 n1 s2 n2 : Option Nat) :
    (mapTextRun env targs s1 n1).calls = (mapTextRun env targs s2 n2).calls ∧
    (mapTextRun env targs s1 n1).err = (mapTextRun env targs s2 n2).err ∧
    (mapTextRun env targs s1 n1).returned = (mapTextRun env targs s2 n2).returned ∧
    (mapEmbeddingsRun env eargs s1 n1).calls = (mapEmbeddingsRun env eargs s2 n2).calls ∧
    (mapEmbeddingsRun env eargs s1 n1).err = (mapEmbeddingsRun env eargs s2 n2).err ∧
    (mapEmbeddingsRun env eargs s1 n1).returned
      = (mapEmbeddingsRun env eargs s2 n2).returned := by
  have htext : (mapTextRun env targs s1 n1).calls = (mapTextRun env targs s2 n2).calls ∧
      (mapTextRun env targs s1 n1).err = (mapTextRun env targs s2 n2).err ∧
      (mapTextRun env targs s1 n1).returned = (mapTextRun env targs s2 n2).returned := by
    unfold mapTextRun
    cases hd : targs.data with
    | nil => exact ⟨rfl, rfl, rfl⟩
    | cons first rest =>
      dsimp only
      cases hv : validate_map_data_inputs targs.colorable_fields first with
      | some e => exact ⟨rfl, rfl, rfl⟩
      | none => exact mapTextFinish_deprecated env targs s1 n1 s2 n2 _ _
  have hemb : (mapEmbeddingsRun env eargs s1 n1).calls
        = (mapEmbeddingsRun env eargs s2 n2).calls ∧
      (mapEmbeddingsRun env eargs s1 n1).err = (mapEmbeddingsRun env eargs s2 n2).err ∧
      (mapEmbeddingsRun env eargs s1 n1).returned
        = (mapEmbeddingsRun env eargs s2 n2).returned := by
    unfold mapEmbeddingsRun
    by_cases hz : eargs.n * eargs.d = 0
    · simp [hz]
    · simp only [hz, if_false]
      cases hda : embDataAug eargs with
      | none => exact ⟨rfl, rfl, rfl⟩
      | some pa => exact afterAug_deprecated env eargs s1 n1 s2 n2 pa.1 pa.2
  exact ⟨htext.1, htext.2.1, htext.2.2, hemb.1, hemb.2.1, hemb.2.2⟩
